import Mathlib

/-!
Verification of the MDA core of the gemseo repository against its
natural-language specification.

The development shallowly embeds the Python code of `src/gemseo/mda/mda.py`
(class `MDA`) and `src/gemseo/core/parallel_execution/disc_parallel_linearization.py`
(class `DiscParallelLinearization`) into Lean.

Modelling conventions:
* Variable names (Python strings) are modelled as natural numbers; the only
  operations the code performs on them are equality tests and sorting, which
  only need a decidable linear order.
* Numeric array entries (numpy floats) are modelled as rationals; `.real` is
  the identity in this real-valued model.
* `numpy.linalg.norm` (the Euclidean 2-norm) and the real square root
  `size ** 0.5` are irrational-valued, so they are abstracted as parameters
  `nrm : List ℚ → ℚ` and `sqrtQ : ℚ → ℚ` of the embedding; the code under
  verification treats both as black boxes.  Concrete witnesses instantiate
  `nrm` with `nrmAbs` (the sum of absolute values), which coincides with the
  Euclidean norm on vectors of length at most one.
* Python exceptions are modelled with `Except`; logging calls are modelled by
  returning the logged warnings as values.
-/

namespace Gemseo

/-- A variable name (a Python string); only decidable equality and a linear
order are needed by the embedded code. -/
abbrev VarName := ℕ

/-- Absolute value on the rational model of numpy floats (`numpy.abs`). -/
def absQ (x : ℚ) : ℚ := if x < 0 then -x else x

/-- `max` of a numpy array (`ndarray.max()` / Python `max`); the code only
applies it to nonempty arrays, the empty case is given the junk value 0. -/
def npMax : List ℚ → ℚ
  | [] => 0
  | x :: xs => xs.foldl max x

/-- Sum of absolute values of the entries.  This computable function is used
to instantiate the abstract norm parameter `nrm` on concrete inputs; it agrees
with the Euclidean 2-norm `numpy.linalg.norm` on vectors of length ≤ 1. -/
def nrmAbs (v : List ℚ) : ℚ := (v.map absQ).sum

/-- The slice `v[a:b]` of a Python array. -/
def sliceOf (v : List ℚ) (a b : ℕ) : List ℚ := (v.drop a).take (b - a)

/-- The residual vector computed by `MDA._compute_residual`
(mda.py line 508): `residual = (current_couplings - new_couplings).real`,
one entry per strong-coupling scalar component. -/
def residual (currentCouplings newCouplings : List ℚ) : List ℚ :=
  List.zipWith (fun c n => c - n) currentCouplings newCouplings

/-- The residual vector as worded by the specification (§3): "equal to
`new_value - current_value` at one iteration".  Stated only to be compared
with `residual`, the vector the source computes. -/
def residualSpec (currentCouplings newCouplings : List ℚ) : List ℚ :=
  List.zipWith (fun c n => n - c) currentCouplings newCouplings

/-- The enum `MDA.ResidualScaling` (mda.py lines 124-171). -/
inductive ResidualScaling
  | noScaling
  | initialResidualNorm
  | initialSubresidualNorm
  | nCouplingVariables
  | initialResidualComponent
  | scaledInitialResidualComponent
deriving DecidableEq, Repr

/-- The dynamic type of the attribute `MDA._scaling_data`
(`float | list[tuple[slice, float]] | NDArray | None`, mda.py line 97);
the `None` case is `Option.none` at the use sites. -/
inductive ScalingData
  | scalar (x : ℚ)
  | subnorms (data : List ((ℕ × ℕ) × ℚ))
  | vector (v : List ℚ)
deriving DecidableEq, Repr

/-- Read `MDA._scaling_data` as a float; in Python a non-float payload would
be a dynamic type error, modelled by the junk value 0 (never reached when the
scaling policy is not changed between residual computations). -/
def ScalingData.asScalar : ScalingData → ℚ
  | .scalar x => x
  | _ => 0

/-- Read `MDA._scaling_data` as a `list[tuple[slice, float]]`; junk value `[]`
on a payload of a different dynamic type. -/
def ScalingData.asSubnorms : ScalingData → List ((ℕ × ℕ) × ℚ)
  | .subnorms d => d
  | _ => []

/-- Read `MDA._scaling_data` as an array; junk value `[]` on a payload of a
different dynamic type. -/
def ScalingData.asVector : ScalingData → List ℚ
  | .vector v => v
  | _ => []

/-- A discipline as seen by the `MDA` class: its input and output grammars
(name, is-numeric-array) — `get_input_data_names` / `get_output_data_names`
return the grammar names — and its `residual_variables` mapping. -/
structure Discipline where
  name : VarName
  inputGrammar : List (VarName × Bool)
  outputGrammar : List (VarName × Bool)
  residualVariables : List (VarName × VarName)
deriving DecidableEq, Repr

/-- `MDODiscipline.get_input_data_names`. -/
def Discipline.inputDataNames (d : Discipline) : List VarName :=
  d.inputGrammar.map Prod.fst

/-- `MDODiscipline.get_output_data_names`. -/
def Discipline.outputDataNames (d : Discipline) : List VarName :=
  d.outputGrammar.map Prod.fst

/-- Python `name in grammar`. -/
def grammarContains (g : List (VarName × Bool)) (n : VarName) : Bool :=
  (g.map Prod.fst).contains n

/-- `grammar.is_array(name, numeric_only=True)`: the flag stored with the
name; `false` when the name is absent. -/
def grammarIsArray (g : List (VarName × Bool)) (n : VarName) : Bool :=
  ((g.lookup n).getD false)

/-- The mutable state of an `MDA` instance that the embedded methods read and
write.  `inputCouplingSizes` models the sizes of the arrays
`self.get_outputs_by_name(self._input_couplings)` read from `local_data` by
the `INITIAL_SUBRESIDUAL_NORM` branch of `_compute_residual`;
`localResidualsNorm` models the entry `local_data[self.RESIDUALS_NORM]`. -/
structure MdaState where
  disciplines : List Discipline
  maxMdaIter : ℕ
  tolerance : ℚ
  linearSolverTolerance : ℚ
  linearSolverOptionKeys : List String
  warmStart : Bool
  residualHistory : List ℚ
  startingIndices : List ℕ
  resetHistoryEachRun : Bool
  scaling : ResidualScaling
  scalingData : Option ScalingData
  norm0 : Option ℚ
  currentIter : ℕ
  normedResidual : ℚ
  strongCouplings : List VarName
  allCouplings : List VarName
  inputCouplingSizes : List ℕ
  useLuFact : Bool
  linCacheTolFact : ℚ
  localResidualsNorm : Option ℚ
deriving DecidableEq, Repr

/-- The scaling dispatch of `MDA._compute_residual` (mda.py lines 510-565):
given the scaling policy, the current `_scaling_data`, the residual vector,
`new_couplings.size` and the sizes of the input-coupling arrays, return the
normed residual together with the possibly-initialized `_scaling_data`.
Each branch initializes `_scaling_data` only when it is `None`. -/
def applyScaling (nrm : List ℚ → ℚ) (sqrtQ : ℚ → ℚ) (scaling : ResidualScaling)
    (scalingData : Option ScalingData) (res : List ℚ) (newSize : ℕ)
    (inputCouplingSizes : List ℕ) : ℚ × Option ScalingData :=
  match scaling with
  | .noScaling =>
      (nrm res, scalingData)
  | .initialResidualNorm =>
      let normedResidual := nrm res
      let sd := match scalingData with
        | none => ScalingData.scalar (normedResidual + (if normedResidual = 0 then 1 else 0))
        | some d => d
      (normedResidual / sd.asScalar, some sd)
  | .nCouplingVariables =>
      let normedResidual := nrm res
      let sd := match scalingData with
        | none => ScalingData.scalar (sqrtQ (newSize : ℚ))
        | some d => d
      (normedResidual / sd.asScalar, some sd)
  | .initialSubresidualNorm =>
      let sd := match scalingData with
        | none =>
            ScalingData.subnorms
              ((inputCouplingSizes.foldl
                (fun (acc : List ((ℕ × ℕ) × ℚ) × ℕ) size =>
                  let currentSlice := (acc.2, acc.2 + size)
                  let initialNorm := nrm (sliceOf res currentSlice.1 currentSlice.2)
                  (acc.1 ++ [(currentSlice, initialNorm + (if initialNorm = 0 then 1 else 0))],
                   acc.2 + size))
                ([], 0)).1)
        | some d => d
      let normalizedNorms :=
        sd.asSubnorms.map (fun p => nrm (sliceOf res p.1.1 p.1.2) / p.2)
      (npMax normalizedNorms, some sd)
  | .initialResidualComponent =>
      let sd := match scalingData with
        | none => ScalingData.vector (res.map (fun r => r + (if r = 0 then 1 else 0)))
        | some d => d
      (npMax ((List.zipWith (fun r d => r / d) res sd.asVector).map absQ), some sd)
  | .scaledInitialResidualComponent =>
      let sd := match scalingData with
        | none => ScalingData.vector (res.map (fun r => r + (if r = 0 then 1 else 0)))
        | some d => d
      (nrm (List.zipWith (fun r d => r / d) res sd.asVector) / sqrtQ (newSize : ℚ),
       some sd)

/-- `MDA._compute_residual` (mda.py lines 486-582).  The logging of the
normed residual (`log_normed_residual`) has no effect on the state and is
omitted.  Returns the updated state; the returned normed residual is the
field `normedResidual` of the result. -/
def computeResidual (nrm : List ℚ → ℚ) (sqrtQ : ℚ → ℚ) (st : MdaState)
    (currentCouplings newCouplings : List ℚ) (storeIt : Bool) : MdaState :=
  let cleared := st.currentIter = 0 ∧ st.resetHistoryEachRun
  let residualHistory := if cleared then [] else st.residualHistory
  let startingIndices := if cleared then [] else st.startingIndices
  let res := residual currentCouplings newCouplings
  let (normedResidual, scalingData) :=
    applyScaling nrm sqrtQ st.scaling st.scalingData res newCouplings.length
      st.inputCouplingSizes
  let startingIndices :=
    if storeIt ∧ st.currentIter = 0 then
      startingIndices ++ [residualHistory.length]
    else startingIndices
  let residualHistory :=
    if storeIt then residualHistory ++ [normedResidual] else residualHistory
  let currentIter := if storeIt then st.currentIter + 1 else st.currentIter
  { st with
    residualHistory := residualHistory
    startingIndices := startingIndices
    scalingData := scalingData
    normedResidual := normedResidual
    currentIter := currentIter
    localResidualsNorm := some normedResidual }

/-- `MDA.execute` (mda.py lines 715-719) resets the iteration counter to zero
before running; the solver loop is in the subclasses.  Note that it does not
reset `_scaling_data`. -/
def executeStart (st : MdaState) : MdaState := { st with currentIter := 0 }

/-- One MDA run, as far as residual bookkeeping is concerned: `execute`
resets the iteration counter, then the subclass `_run` loop performs one
stored residual computation per iteration on the successive pairs of
(values before the iteration, values after it). -/
def runResiduals (nrm : List ℚ → ℚ) (sqrtQ : ℚ → ℚ) (st : MdaState)
    (pairs : List (List ℚ × List ℚ)) : MdaState :=
  pairs.foldl (fun s p => computeResidual nrm sqrtQ s p.1 p.2 true) (executeStart st)

/-- `MDA._warn_convergence_criteria` (mda.py lines 721-736): returns the pair
(residual_is_small, max_iter_is_reached) together with whether the
non-convergence warning is logged.  The function raises no exception, which
the total return type makes structural. -/
def warnConvergenceCriteria (st : MdaState) : (Bool × Bool) × Bool :=
  let residualIsSmall := decide (st.normedResidual ≤ st.tolerance)
  let maxIterIsReached := decide (st.maxMdaIter ≤ st.currentIter)
  ((residualIsSmall, maxIterIsReached), maxIterIsReached && !residualIsSmall)

/-- `MDA._stop_criterion_is_reached` (mda.py lines 738-742). -/
def stopCriterionIsReached (st : MdaState) : Bool :=
  let flags := (warnConvergenceCriteria st).1
  flags.1 || flags.2

/-- Sorting of a list of names (Python `sorted`). -/
def sortNames (l : List VarName) : List VarName := List.insertionSort (· ≤ ·) l

/-- Modelled from the spec: `MDOCouplingStructure.is_self_coupled` is not in
the sources; per §4.1 a discipline is self-coupled when it "produces and
consumes the same variable". -/
def Discipline.isSelfCoupled (d : Discipline) : Bool :=
  d.inputDataNames.any (fun v => d.outputDataNames.contains v)

/-- The edge relation of the discipline dependency graph (spec §4.1): an edge
goes from the discipline producing a variable to every discipline consuming
it.  `adjacent discs i j` holds when some output of discipline `i` is an
input of discipline `j`. -/
def adjacent (discs : List Discipline) (i j : ℕ) : Bool :=
  match discs.get? i, discs.get? j with
  | some di, some dj => di.outputDataNames.any (fun v => dj.inputDataNames.contains v)
  | _, _ => false

/-- Paths of length at most `fuel + 1` in the dependency graph:
`reachFuel discs fuel i j` holds when `j` can be reached from `i`. -/
def reachFuel (discs : List Discipline) : ℕ → ℕ → ℕ → Bool
  | 0, i, j => adjacent discs i j
  | fuel + 1, i, j =>
      reachFuel discs fuel i j ||
        (List.range discs.length).any
          (fun m => reachFuel discs fuel i m && adjacent discs m j)

/-- Reachability in the dependency graph (paths of any length; with `n`
disciplines, paths of length at most `n + 1` suffice). -/
def reaches (discs : List Discipline) (i j : ℕ) : Bool :=
  reachFuel discs discs.length i j

/-- Modelled from the spec:
`MDOCouplingStructure.get_strongly_coupled_disciplines(add_self_coupled=False)`
is not in the sources; per §4.1 the strongly coupled disciplines are the
members of strongly connected components of the dependency graph, a component
being "size > 1, or size 1 with a self-loop", and excluding the self-coupled
ones keeps exactly the disciplines lying on a cycle through another
discipline. -/
def stronglyCoupledNoSelf (discs : List Discipline) : List Discipline :=
  (discs.enum.filter (fun p =>
    (List.range discs.length).any
      (fun j => j ≠ p.1 && reaches discs p.1 j && reaches discs j p.1))).map Prod.snd

/-- Modelled from the spec: `MDOCouplingStructure.all_couplings` is not in
the sources; per §3 a coupling variable is "a variable name that is an output
of at least one discipline and an input of at least one other discipline in
the same analysis".  Returned sorted and without duplicates. -/
def allCouplingsOfDisciplines (discs : List Discipline) : List VarName :=
  sortNames
    (((discs.flatMap Discipline.outputDataNames).filter (fun v =>
      discs.enum.any (fun p =>
        p.2.outputDataNames.contains v &&
          discs.enum.any (fun q => q.1 ≠ p.1 && q.2.inputDataNames.contains v)))).dedup)

/-- Modelled from the spec: `MDOCouplingStructure.strong_couplings` is not in
the sources; per §4.1 "any variable produced by one and consumed by another
member of the same component is a strong coupling". -/
def strongCouplingsOfDisciplines (discs : List Discipline) : List VarName :=
  sortNames
    (((discs.flatMap Discipline.outputDataNames).filter (fun v =>
      discs.enum.any (fun p =>
        p.2.outputDataNames.contains v &&
          discs.enum.any (fun q =>
            q.1 ≠ p.1 && q.2.inputDataNames.contains v &&
              reaches discs p.1 q.1 && reaches discs q.1 p.1)))).dedup)

/-- The warnings logged by `MDA._check_consistency` (mda.py lines 305-350). -/
inductive MdaWarning
  | selfCouplingVariables (discName : VarName) (vars : List VarName)
  | selfCoupledAndStrong (discNames : List VarName)
  | multipleOutputs (outs : List VarName)
deriving DecidableEq, Repr

/-- The list `multiple_outs` built by `MDA._check_consistency` (mda.py lines
338-344): outputs seen again after being recorded in the `all_outs` dict. -/
def multipleOuts (discs : List Discipline) : List VarName :=
  (discs.foldl
    (fun acc d =>
      d.outputDataNames.foldl
        (fun acc2 out =>
          if acc2.1.contains out then (acc2.1, acc2.2 ++ [out])
          else (acc2.1 ++ [out], acc2.2))
        acc)
    (([], []) : List VarName × List VarName)).2

/-- `MDA._check_consistency` (mda.py lines 305-350): the method only logs
warnings — returned here as values, in logging order — and raises nothing. -/
def checkConsistency (discs : List Discipline) : List MdaWarning :=
  let alsoStrong := (stronglyCoupledNoSelf discs).filter Discipline.isSelfCoupled
  let selfWarnings := alsoStrong.map (fun d =>
    MdaWarning.selfCouplingVariables d.name
      (sortNames ((d.inputDataNames.filter (fun v => d.outputDataNames.contains v)).dedup)))
  let strongWarnings :=
    if alsoStrong = [] then []
    else [MdaWarning.selfCoupledAndStrong (sortNames (alsoStrong.map Discipline.name))]
  let dupWarnings :=
    if multipleOuts discs = [] then []
    else [MdaWarning.multipleOutputs (sortNames (multipleOuts discs))]
  selfWarnings ++ strongWarnings ++ dupWarnings

/-- The exceptions raised by the `MDA` constructor: `ValueError` from
`__check_linear_solver_options` and `TypeError` from `_check_coupling_types`
(which names the offending coupling variables). -/
inductive PyError
  | valueError (msg : String)
  | typeError (couplings : List VarName)
deriving DecidableEq, Repr

/-- The list `not_arrays` built by `MDA._check_coupling_types` (mda.py lines
401-420): couplings present in a discipline grammar without being a numeric
array type. -/
def notArraysOf (discs : List Discipline) (allCouplings : List VarName) : List VarName :=
  discs.foldl
    (fun acc d =>
      [d.inputGrammar, d.outputGrammar].foldl
        (fun acc2 g =>
          allCouplings.foldl
            (fun acc3 c =>
              if grammarContains g c && !grammarIsArray g c then acc3 ++ [c] else acc3)
            acc2)
        acc)
    []

/-- The constructor arguments of `MDA.__init__` (mda.py lines 173-187) with
their default values; the linear solver options are represented by their
keys, the only part the embedded code reads. -/
structure MdaConfig where
  disciplines : List Discipline
  maxMdaIter : ℕ := 10
  tolerance : ℚ := 1 / 1000000
  linearSolverTolerance : ℚ := 1 / 1000000000000
  warmStart : Bool := false
  useLuFact : Bool := false
  linearSolverOptionKeys : List String := []
deriving DecidableEq, Repr

/-- The state assembled by `MDA.__init__` (mda.py lines 212-250) when none of
its checks raises: history empty, `reset_history_each_run = False`, scaling
policy `INITIAL_RESIDUAL_NORM` with `_scaling_data = None`, iteration counter
0, normed residual 1.0 and `lin_cache_tol_fact = 0.0`. -/
def freshStateOf (cfg : MdaConfig) : MdaState where
  disciplines := cfg.disciplines
  maxMdaIter := cfg.maxMdaIter
  tolerance := cfg.tolerance
  linearSolverTolerance := cfg.linearSolverTolerance
  linearSolverOptionKeys := cfg.linearSolverOptionKeys
  warmStart := cfg.warmStart
  residualHistory := []
  startingIndices := []
  resetHistoryEachRun := false
  scaling := .initialResidualNorm
  scalingData := none
  norm0 := none
  currentIter := 0
  normedResidual := 1
  strongCouplings := strongCouplingsOfDisciplines cfg.disciplines
  allCouplings := allCouplingsOfDisciplines cfg.disciplines
  inputCouplingSizes := []
  useLuFact := cfg.useLuFact
  linCacheTolFact := 0
  localResidualsNorm := none

/-- The `ValueError` message of `MDA.__check_linear_solver_options`. -/
def linearSolverTolMsg : String :=
  "The linear solver tolerance shall be set using the linear_solver_tolerance argument."

/-- `MDA.__init__` (mda.py lines 173-250): builds the state, logging the
consistency warnings, then `__check_linear_solver_options` raises
`ValueError` when the option dict holds a `tol` key, and
`_check_coupling_types` raises `TypeError` naming the sorted offending
couplings when a coupling variable is declared with a non-array type.  All
checks run at construction, before any execution. -/
def mkMDA (cfg : MdaConfig) : Except PyError (List MdaWarning × MdaState) :=
  let warnings := checkConsistency cfg.disciplines
  if "tol" ∈ cfg.linearSolverOptionKeys then
    .error (.valueError linearSolverTolMsg)
  else
    let notArr := notArraysOf cfg.disciplines (allCouplingsOfDisciplines cfg.disciplines)
    if notArr = [] then .ok (warnings, freshStateOf cfg)
    else .error (.typeError (sortNames notArr.dedup))

/-- Whether an `Except` computation succeeded (Python: no exception). -/
def exceptOk : Except ε α → Bool
  | .ok _ => true
  | .error _ => false

/-- The arguments that `MDA._compute_jacobian` passes to
`JacobianAssembly.total_derivatives` (the assembly itself is an external
collaborator of this embedding). -/
structure JacobianCallArgs where
  couplingsAdjoint : List VarName
  residualVariables : List (VarName × VarName)
  linearSolverTolerance : ℚ
  useLuFact : Bool
  execCacheTol : ℚ
  execute : Bool
deriving DecidableEq, Repr

/-- Python `dict.update` with a single key-value pair: replace the value in
place when the key is present, append otherwise. -/
def dictUpdate (d : List (VarName × VarName)) (kv : VarName × VarName) :
    List (VarName × VarName) :=
  if (d.lookup kv.1).isSome then d.map (fun p => if p.1 = kv.1 then kv else p)
  else d ++ [kv]

/-- The dict `residual_variables` built by `MDA._compute_jacobian` (mda.py
lines 460-462): `update` of every discipline's `residual_variables`, in
order. -/
def mergedResidualVariables (discs : List Discipline) : List (VarName × VarName) :=
  discs.foldl (fun acc d => d.residualVariables.foldl dictUpdate acc) []

/-- `MDA._compute_jacobian` (mda.py lines 448-484) up to the call to
`JacobianAssembly.total_derivatives`: computes `exec_cache_tol`, re-runs the
linear solver option check, merges the disciplines' residual variables and
computes `couplings_adjoint = sorted(set(all_couplings) -
residual_variables.keys() - set(residual_variables.values()))`. -/
def computeJacobianCall (st : MdaState) : Except PyError JacobianCallArgs :=
  let execCacheTol := st.linCacheTolFact * st.tolerance
  if "tol" ∈ st.linearSolverOptionKeys then
    .error (.valueError linearSolverTolMsg)
  else
    let residualVariables := mergedResidualVariables st.disciplines
    let couplingsAdjoint :=
      sortNames
        ((st.allCouplings.filter (fun v =>
          !(residualVariables.map Prod.fst).contains v &&
            !(residualVariables.map Prod.snd).contains v)).dedup)
    .ok
      { couplingsAdjoint
        residualVariables
        linearSolverTolerance := st.linearSolverTolerance
        useLuFact := st.useLuFact
        execCacheTol
        execute := decide (execCacheTol = 0) }

/-- The coupling-adjoint variable set as worded by the claim: all coupling
variables minus every name occurring as a key or a value of ANY single
discipline's `residual_variables` mapping, sorted.  Stated only to be
compared with the set the source computes from the merged dict. -/
def couplingsAdjointSpec (discs : List Discipline) (allCouplings : List VarName) :
    List VarName :=
  sortNames
    ((allCouplings.filter (fun v =>
      !discs.any (fun d =>
        (d.residualVariables.map Prod.fst).contains v ||
          (d.residualVariables.map Prod.snd).contains v))).dedup)

/-- The Python exceptions involved in `DiscParallelLinearization.execute`:
`TypeError` from subscripting `None`, `IndexError` from indexing an empty
list. -/
inductive PyException
  | typeError
  | indexError
deriving DecidableEq, Repr

/-- The outcome of one worker call in a parallel batch: a returned value, or
an exception of a given class (classes are numbered). -/
inductive CallOutcome (α : Type)
  | success (val : α)
  | failure (exc : ℕ)
deriving DecidableEq, Repr

/-- Modelled from the spec: `CallableParallelExecution.execute` is not in the
sources (only its callers and tests are).  Per §4.5 and the test
`test_re_raise_exceptions`, a worker call that raises an exception listed in
`exceptions_to_re_raise` is re-raised, and any other failed call yields
`None` in its slot of the returned list without cancelling sibling calls. -/
def callableParallelExecute (reRaise : List ℕ) (outcomes : List (CallOutcome α)) :
    Except ℕ (List (Option α)) :=
  match outcomes.findSome? (fun o =>
    match o with
    | .failure e => if reRaise.contains e then some e else none
    | .success _ => none) with
  | some e => .error e
  | none =>
      .ok (outcomes.map fun o =>
        match o with
        | .success v => some v
        | .failure _ => none)

/-- A worker of `DiscParallelLinearization` together with the discipline
state it wraps: its `local_data` and its Jacobian `jac` (initially unset). -/
structure LinWorker (δ γ : Type) where
  localData : δ
  jac : Option γ
deriving DecidableEq, Repr

/-- `DiscParallelLinearization.execute` (disc_parallel_linearization.py lines
90-126), applied to the slot list `ordered_outputs` produced by
`CallableParallelExecution.execute`, where a slot is `some (local_data, jac)`
for a worker that returned and `none` for a worker that raised.  Python
subscripting `output[0]` / `out[1]` on a `None` slot raises `TypeError`;
`ordered_outputs[0]` on an empty list raises `IndexError`.  The
multiprocessing call-counter bookkeeping (`n_calls`, spawn start method) is
omitted: it touches neither the returned list nor the workers' data.
Returns the updated workers and the returned list of Jacobians. -/
def discParallelLinearizationExecute (workers : List (LinWorker δ γ)) (nInputs : ℕ)
    (ordered : List (Option (δ × γ))) :
    Except PyException (List (LinWorker δ γ) × List γ) := do
  let workers' ←
    if workers.length = 1 ∨ ¬workers.length = nInputs then
      if workers.length = 1 then
        match ordered.head? with
        | none => throw .indexError
        | some none => throw .typeError
        | some (some (ld, j)) =>
            pure (workers.map fun w => { w with localData := ld, jac := some j })
      else
        pure workers
    else
      (ordered.zip workers).mapM (fun p =>
        match p.1 with
        | none => throw PyException.typeError
        | some (ld, j) => pure { p.2 with localData := ld, jac := some j })
  let returned ← ordered.mapM (fun o =>
    match o with
    | none => throw PyException.typeError
    | some p => pure p.2)
  pure (workers', returned)

/-- A single discipline with one array output and no input: the smallest
well-formed MDA configuration, used to instantiate theorems about
constructor-produced states. -/
def cfg0 : MdaConfig where
  disciplines := [{ name := 0, inputGrammar := [], outputGrammar := [(1, true)],
                    residualVariables := [] }]

/-- Two disciplines declaring the same output name `1`: the duplicate-output
configuration. -/
def cfgDup : MdaConfig where
  disciplines :=
    [{ name := 0, inputGrammar := [], outputGrammar := [(1, true)],
       residualVariables := [] },
     { name := 1, inputGrammar := [], outputGrammar := [(1, true)],
       residualVariables := [] }]

/-- Discipline `0` produces coupling variable `1` with a non-array type;
discipline `1` consumes it (with an array type on its side). -/
def cfgNA : MdaConfig where
  disciplines :=
    [{ name := 0, inputGrammar := [], outputGrammar := [(1, false)],
       residualVariables := [] },
     { name := 1, inputGrammar := [(1, true)], outputGrammar := [(2, true)],
       residualVariables := [] }]

/-- Two disciplines whose `residual_variables` mappings share the key `5`
with different values: discipline `10` maps `5 ↦ 1`, discipline `11` maps
`5 ↦ 2`; variable `1` is a coupling (produced by `10`, consumed by `11`). -/
def cfgRV : MdaConfig where
  disciplines :=
    [{ name := 10, inputGrammar := [], outputGrammar := [(1, true), (5, true)],
       residualVariables := [(5, 1)] },
     { name := 11, inputGrammar := [(1, true)], outputGrammar := [(2, true)],
       residualVariables := [(5, 2)] }]

/-- The coupling-adjoint list of the state's jacobian-assembly call; `[]`
when the call raises. -/
def jacCouplingsAdjoint (st : MdaState) : List VarName :=
  match computeJacobianCall st with
  | .ok args => args.couplingsAdjoint
  | .error _ => []

/-- The arguments `computeJacobianCall` produces when the linear solver
option check passes (spelled out for direct reference in theorems). -/
def jacCallArgsOf (st : MdaState) : JacobianCallArgs where
  couplingsAdjoint :=
    sortNames
      ((st.allCouplings.filter (fun v =>
        !((mergedResidualVariables st.disciplines).map Prod.fst).contains v &&
          !((mergedResidualVariables st.disciplines).map Prod.snd).contains v)).dedup)
  residualVariables := mergedResidualVariables st.disciplines
  linearSolverTolerance := st.linearSolverTolerance
  useLuFact := st.useLuFact
  execCacheTol := st.linCacheTolFact * st.tolerance
  execute := decide (st.linCacheTolFact * st.tolerance = 0)

lemma computeResidual_eq (nrm : List ℚ → ℚ) (sqrtQ : ℚ → ℚ) (st : MdaState)
    (c n : List ℚ) (b : Bool) (r : ℚ) (sd : Option ScalingData)
    (happ : applyScaling nrm sqrtQ st.scaling st.scalingData (residual c n)
      n.length st.inputCouplingSizes = (r, sd)) :
    computeResidual nrm sqrtQ st c n b =
      { st with
        residualHistory :=
          if b then
            (if st.currentIter = 0 ∧ st.resetHistoryEachRun then []
              else st.residualHistory) ++ [r]
          else
            (if st.currentIter = 0 ∧ st.resetHistoryEachRun then []
              else st.residualHistory)
        startingIndices :=
          if b ∧ st.currentIter = 0 then
            (if st.currentIter = 0 ∧ st.resetHistoryEachRun then []
              else st.startingIndices) ++
              [(if st.currentIter = 0 ∧ st.resetHistoryEachRun then []
                else st.residualHistory).length]
          else
            (if st.currentIter = 0 ∧ st.resetHistoryEachRun then []
              else st.startingIndices)
        scalingData := sd
        normedResidual := r
        currentIter := if b then st.currentIter + 1 else st.currentIter
        localResidualsNorm := some r } := by
  unfold computeResidual
  simp only [happ]

lemma applyScaling_some (nrm : List ℚ → ℚ) (sqrtQ : ℚ → ℚ)
    (scal : ResidualScaling) (d : ScalingData) (res : List ℚ) (ns : ℕ)
    (ics : List ℕ) :
    (applyScaling nrm sqrtQ scal (some d) res ns ics).2 = some d := by
  cases scal <;> simp [applyScaling]

lemma applyScaling_irn_some (nrm : List ℚ → ℚ) (sqrtQ : ℚ → ℚ) (d : ℚ)
    (res : List ℚ) (ns : ℕ) (ics : List ℕ) :
    applyScaling nrm sqrtQ .initialResidualNorm (some (.scalar d)) res ns ics
      = (nrm res / d, some (.scalar d)) := by
  simp [applyScaling, ScalingData.asScalar]

lemma applyScaling_irn_none (nrm : List ℚ → ℚ) (sqrtQ : ℚ → ℚ)
    (res : List ℚ) (ns : ℕ) (ics : List ℕ) :
    applyScaling nrm sqrtQ .initialResidualNorm none res ns ics
      = (nrm res / (nrm res + if nrm res = 0 then 1 else 0),
         some (.scalar (nrm res + if nrm res = 0 then 1 else 0))) := by
  simp [applyScaling, ScalingData.asScalar]

/-- C5: An MDA run stops iterating exactly when the normed residual is less
than or equal to the tolerance or the iteration count has reached
`max_mda_iter`; reaching the maximum iteration count without meeting the
tolerance logs a warning (the second component of `warnConvergenceCriteria`)
and does not raise an exception (the embedded functions are total and return
both flags to the caller). -/
theorem mda_stop_criterion (st : MdaState) :
    (stopCriterionIsReached st = true ↔
      (st.normedResidual ≤ st.tolerance ∨ st.maxMdaIter ≤ st.currentIter)) ∧
    ((warnConvergenceCriteria st).2 = true ↔
      (st.maxMdaIter ≤ st.currentIter ∧ ¬st.normedResidual ≤ st.tolerance)) ∧
    (warnConvergenceCriteria st).1 =
      (decide (st.normedResidual ≤ st.tolerance),
       decide (st.maxMdaIter ≤ st.currentIter)) := by
  refine ⟨?_, ?_, rfl⟩
  · simp [stopCriterionIsReached, warnConvergenceCriteria]
  · simp [warnConvergenceCriteria, and_comm]

/-- C6: The residual history is append-only: a stored residual computation
appends exactly one scaled residual to `residual_history`, records the start
index of a new run (iteration counter zero) in `_starting_indices`, and the
history is cleared only at the start of a run (iteration counter zero) and
only when `reset_history_each_run` is enabled; an unstored computation
appends nothing. -/
theorem mda_residual_history_append (nrm : List ℚ → ℚ) (sqrtQ : ℚ → ℚ)
    (st : MdaState) (c n : List ℚ) :
    (computeResidual nrm sqrtQ st c n true).residualHistory =
      (if st.currentIter = 0 ∧ st.resetHistoryEachRun then []
        else st.residualHistory) ++
        [(computeResidual nrm sqrtQ st c n true).normedResidual] ∧
    (computeResidual nrm sqrtQ st c n true).startingIndices =
      (if st.currentIter = 0 then
        (if st.currentIter = 0 ∧ st.resetHistoryEachRun then []
          else st.startingIndices) ++
          [(if st.currentIter = 0 ∧ st.resetHistoryEachRun then []
            else st.residualHistory).length]
       else st.startingIndices) ∧
    (computeResidual nrm sqrtQ st c n true).currentIter = st.currentIter + 1 ∧
    (computeResidual nrm sqrtQ st c n false).residualHistory =
      (if st.currentIter = 0 ∧ st.resetHistoryEachRun then []
        else st.residualHistory) := by
  rcases happ : applyScaling nrm sqrtQ st.scaling st.scalingData (residual c n)
      n.length st.inputCouplingSizes with ⟨r, sd⟩
  rw [computeResidual_eq nrm sqrtQ st c n true r sd happ,
    computeResidual_eq nrm sqrtQ st c n false r sd happ]
  by_cases h0 : st.currentIter = 0 <;> simp [h0]

lemma executeStart_scaling (s : MdaState) : (executeStart s).scaling = s.scaling := rfl

lemma executeStart_scalingData (s : MdaState) :
    (executeStart s).scalingData = s.scalingData := rfl

lemma executeStart_reset (s : MdaState) :
    (executeStart s).resetHistoryEachRun = s.resetHistoryEachRun := rfl

lemma executeStart_residualHistory (s : MdaState) :
    (executeStart s).residualHistory = s.residualHistory := rfl

lemma executeStart_normedResidual (s : MdaState) :
    (executeStart s).normedResidual = s.normedResidual := rfl

lemma computeResidual_scalingData_some (nrm : List ℚ → ℚ) (sqrtQ : ℚ → ℚ)
    (st : MdaState) (c n : List ℚ) (b : Bool) (d : ScalingData)
    (h : st.scalingData = some d) :
    (computeResidual nrm sqrtQ st c n b).scalingData = some d := by
  rcases happ : applyScaling nrm sqrtQ st.scaling st.scalingData (residual c n)
      n.length st.inputCouplingSizes with ⟨r, sd⟩
  rw [computeResidual_eq nrm sqrtQ st c n b r sd happ]
  have h2 := applyScaling_some nrm sqrtQ st.scaling d (residual c n)
    n.length st.inputCouplingSizes
  rw [h] at happ
  rw [happ] at h2
  exact h2

lemma foldResiduals_scalingData_some (nrm : List ℚ → ℚ) (sqrtQ : ℚ → ℚ)
    (pairs : List (List ℚ × List ℚ)) :
    ∀ (s : MdaState) (d : ScalingData), s.scalingData = some d →
      (pairs.foldl (fun a p => computeResidual nrm sqrtQ a p.1 p.2 true) s).scalingData
        = some d := by
  induction pairs with
  | nil => intro s d h; exact h
  | cons p ps ih =>
      intro s d h
      exact ih _ d (computeResidual_scalingData_some nrm sqrtQ s p.1 p.2 true d h)

lemma computeResidual_irn (nrm : List ℚ → ℚ) (sqrtQ : ℚ → ℚ) (st : MdaState)
    (c n : List ℚ) (d : ℚ) (hsc : st.scaling = .initialResidualNorm)
    (hsd : st.scalingData = some (.scalar d)) (hr : st.resetHistoryEachRun = false) :
    computeResidual nrm sqrtQ st c n true =
      { st with
        residualHistory := st.residualHistory ++ [nrm (residual c n) / d]
        startingIndices :=
          if st.currentIter = 0 then st.startingIndices ++ [st.residualHistory.length]
          else st.startingIndices
        scalingData := some (.scalar d)
        normedResidual := nrm (residual c n) / d
        currentIter := st.currentIter + 1
        localResidualsNorm := some (nrm (residual c n) / d) } := by
  have happ : applyScaling nrm sqrtQ st.scaling st.scalingData (residual c n)
      n.length st.inputCouplingSizes = (nrm (residual c n) / d, some (.scalar d)) := by
    rw [hsc, hsd]
    exact applyScaling_irn_some nrm sqrtQ d (residual c n) n.length st.inputCouplingSizes
  rw [computeResidual_eq nrm sqrtQ st c n true _ _ happ]
  simp [hr]

lemma foldResiduals_irn (nrm : List ℚ → ℚ) (sqrtQ : ℚ → ℚ) (d : ℚ)
    (pairs : List (List ℚ × List ℚ)) :
    ∀ (s : MdaState), s.scaling = .initialResidualNorm →
      s.scalingData = some (.scalar d) → s.resetHistoryEachRun = false →
      (pairs.foldl (fun a p => computeResidual nrm sqrtQ a p.1 p.2 true) s).scaling
          = .initialResidualNorm ∧
        (pairs.foldl (fun a p => computeResidual nrm sqrtQ a p.1 p.2 true) s).scalingData
          = some (.scalar d) ∧
        (pairs.foldl (fun a p => computeResidual nrm sqrtQ a p.1 p.2 true) s).resetHistoryEachRun
          = false ∧
        (pairs.foldl (fun a p => computeResidual nrm sqrtQ a p.1 p.2 true) s).residualHistory
          = s.residualHistory ++ pairs.map (fun p => nrm (residual p.1 p.2) / d) ∧
        (pairs.foldl (fun a p => computeResidual nrm sqrtQ a p.1 p.2 true) s).normedResidual
          = pairs.foldl (fun _ p => nrm (residual p.1 p.2) / d) s.normedResidual := by
  induction pairs with
  | nil => intro s h1 h2 h3; simp [h1, h2, h3]
  | cons p ps ih =>
      intro s h1 h2 h3
      rw [List.foldl_cons, computeResidual_irn nrm sqrtQ s p.1 p.2 d h1 h2 h3]
      have := ih { s with
        residualHistory := s.residualHistory ++ [nrm (residual p.1 p.2) / d]
        startingIndices :=
          if s.currentIter = 0 then s.startingIndices ++ [s.residualHistory.length]
          else s.startingIndices
        scalingData := some (.scalar d)
        normedResidual := nrm (residual p.1 p.2) / d
        currentIter := s.currentIter + 1
        localResidualsNorm := some (nrm (residual p.1 p.2) / d) } h1 rfl h3
      simpa using this

lemma runResiduals_two_runs_irn (nrm : List ℚ → ℚ) (sqrtQ : ℚ → ℚ)
    (cfg : MdaConfig) (q : List ℚ × List ℚ) (pairs1 pairs2 : List (List ℚ × List ℚ)) :
    (runResiduals nrm sqrtQ (runResiduals nrm sqrtQ (freshStateOf cfg) (q :: pairs1))
        pairs2).residualHistory =
      ((q :: pairs1) ++ pairs2).map (fun p =>
        nrm (residual p.1 p.2) /
          (nrm (residual q.1 q.2) + if nrm (residual q.1 q.2) = 0 then 1 else 0)) ∧
    (runResiduals nrm sqrtQ (runResiduals nrm sqrtQ (freshStateOf cfg) (q :: pairs1))
        pairs2).normedResidual =
      (pairs1 ++ pairs2).foldl
        (fun _ p => nrm (residual p.1 p.2) /
          (nrm (residual q.1 q.2) + if nrm (residual q.1 q.2) = 0 then 1 else 0))
        (nrm (residual q.1 q.2) /
          (nrm (residual q.1 q.2) + if nrm (residual q.1 q.2) = 0 then 1 else 0)) := by
  set d := nrm (residual q.1 q.2) + if nrm (residual q.1 q.2) = 0 then 1 else 0 with hd
  have happ : applyScaling nrm sqrtQ (freshStateOf cfg).scaling
      (freshStateOf cfg).scalingData (residual q.1 q.2) q.2.length
      (freshStateOf cfg).inputCouplingSizes
        = (nrm (residual q.1 q.2) / d, some (.scalar d)) := by
    rw [hd]
    exact applyScaling_irn_none nrm sqrtQ (residual q.1 q.2) q.2.length
      (freshStateOf cfg).inputCouplingSizes
  have hA : computeResidual nrm sqrtQ (freshStateOf cfg) q.1 q.2 true =
      { freshStateOf cfg with
        residualHistory := [nrm (residual q.1 q.2) / d]
        startingIndices := [0]
        scalingData := some (.scalar d)
        normedResidual := nrm (residual q.1 q.2) / d
        currentIter := 1
        localResidualsNorm := some (nrm (residual q.1 q.2) / d) } := by
    rw [computeResidual_eq nrm sqrtQ (freshStateOf cfg) q.1 q.2 true _ _ happ]
    simp [freshStateOf]
  obtain ⟨hBsc, hBsd, hBrst, hBhist, hBnorm⟩ := foldResiduals_irn nrm sqrtQ d pairs1
    { freshStateOf cfg with
      residualHistory := [nrm (residual q.1 q.2) / d]
      startingIndices := [0]
      scalingData := some (.scalar d)
      normedResidual := nrm (residual q.1 q.2) / d
      currentIter := 1
      localResidualsNorm := some (nrm (residual q.1 q.2) / d) } rfl rfl rfl
  obtain ⟨_, _, _, hChist, hCnorm⟩ := foldResiduals_irn nrm sqrtQ d pairs2
    (executeStart (pairs1.foldl (fun a p => computeResidual nrm sqrtQ a p.1 p.2 true)
      { freshStateOf cfg with
        residualHistory := [nrm (residual q.1 q.2) / d]
        startingIndices := [0]
        scalingData := some (.scalar d)
        normedResidual := nrm (residual q.1 q.2) / d
        currentIter := 1
        localResidualsNorm := some (nrm (residual q.1 q.2) / d) }))
    ((executeStart_scaling _).trans hBsc) ((executeStart_scalingData _).trans hBsd)
    ((executeStart_reset _).trans hBrst)
  have hrun1 : runResiduals nrm sqrtQ (freshStateOf cfg) (q :: pairs1) =
      pairs1.foldl (fun a p => computeResidual nrm sqrtQ a p.1 p.2 true)
        { freshStateOf cfg with
          residualHistory := [nrm (residual q.1 q.2) / d]
          startingIndices := [0]
          scalingData := some (.scalar d)
          normedResidual := nrm (residual q.1 q.2) / d
          currentIter := 1
          localResidualsNorm := some (nrm (residual q.1 q.2) / d) } := by
    unfold runResiduals
    rw [show executeStart (freshStateOf cfg) = freshStateOf cfg from rfl,
      List.foldl_cons, hA]
  constructor
  · rw [hrun1]
    show (pairs2.foldl (fun a p => computeResidual nrm sqrtQ a p.1 p.2 true)
      (executeStart _)).residualHistory = _
    rw [hChist, executeStart_residualHistory, hBhist]
    simp
  · rw [hrun1]
    show (pairs2.foldl (fun a p => computeResidual nrm sqrtQ a p.1 p.2 true)
      (executeStart _)).normedResidual = _
    rw [hCnorm, executeStart_normedResidual, hBnorm]
    simp [List.foldl_append]

/-- C3 (amended): under the default `INITIAL_RESIDUAL_NORM` policy of a
freshly constructed MDA, the normed residual of every iteration equals the
norm of the current residual divided by the norm of the first-iteration
residual of the FIRST run after construction (with denominator 1 when that
first norm is zero); the denominator is captured once and is NOT recomputed
at the start of later runs: here two consecutive runs (`q :: pairs1`, then
`pairs2`) share the denominator captured at the very first iteration. -/
theorem mda_initial_residual_norm_scaling (nrm : List ℚ → ℚ) (sqrtQ : ℚ → ℚ)
    (cfg : MdaConfig) (q : List ℚ × List ℚ) (pairs1 pairs2 : List (List ℚ × List ℚ)) :
    (runResiduals nrm sqrtQ (runResiduals nrm sqrtQ (freshStateOf cfg) (q :: pairs1))
        pairs2).residualHistory =
      ((q :: pairs1) ++ pairs2).map (fun p =>
        nrm (residual p.1 p.2) /
          (nrm (residual q.1 q.2) + if nrm (residual q.1 q.2) = 0 then 1 else 0)) :=
  (runResiduals_two_runs_irn nrm sqrtQ cfg q pairs1 pairs2).1

/-- C3, counterexample to the claim as stated: on a fresh MDA (default
policy `INITIAL_RESIDUAL_NORM`), a first run whose only iteration has
residual vector `[2]` followed by a second run whose only iteration has
residual vector `[4]` yields the normed residual `2` for the second run's
iteration, whereas the claim ("divided by the 2-norm of the first-iteration
residual of the current run") predicts `‖[4]‖₂ / ‖[4]‖₂ = 1`: the denominator
of the current (second) run is NOT recaptured.  `nrmAbs` agrees with the
Euclidean norm on these one-component vectors. -/
theorem mda_initial_residual_norm_scaling_counterexample :
    (runResiduals nrmAbs id (runResiduals nrmAbs id (freshStateOf cfg0)
        [([2], [0])]) [([4], [0])]).normedResidual = 2 ∧
    nrmAbs (residual [4] [0]) / nrmAbs (residual [4] [0]) = 1 ∧ (2 : ℚ) ≠ 1 := by
  have h2 : nrmAbs (residual [2] [0]) = 2 := by
    norm_num [residual, nrmAbs, absQ]
  have h4 : nrmAbs (residual [4] [0]) = 4 := by
    norm_num [residual, nrmAbs, absQ]
  have hmain := (runResiduals_two_runs_irn nrmAbs id cfg0 ([2], [0]) [] [([4], [0])]).2
  rw [show ([] : List (List ℚ × List ℚ)) ++ [([4], [0])] = [([4], [0])] from rfl] at hmain
  rw [List.foldl_cons, List.foldl_nil] at hmain
  rw [hmain]
  norm_num [h2, h4]

/-- C4: for every residual-scaling policy using a first-iteration reference
(`INITIAL_RESIDUAL_NORM`, `INITIAL_SUBRESIDUAL_NORM`,
`INITIAL_RESIDUAL_COMPONENT`, `SCALED_INITIAL_RESIDUAL_COMPONENT`), the
scaling data captured at the first residual computation of a run is set (to
some value `d`) and is never recomputed or overwritten by any later residual
computation of that run. -/
theorem mda_scaling_data_frozen (nrm : List ℚ → ℚ) (sqrtQ : ℚ → ℚ) (st : MdaState)
    (p : List ℚ × List ℚ) (pairs : List (List ℚ × List ℚ))
    (hpol : st.scaling = .initialResidualNorm ∨ st.scaling = .initialSubresidualNorm ∨
      st.scaling = .initialResidualComponent ∨
      st.scaling = .scaledInitialResidualComponent)
    (hnone : st.scalingData = none) :
    ∃ d, (computeResidual nrm sqrtQ (executeStart st) p.1 p.2 true).scalingData = some d ∧
      (runResiduals nrm sqrtQ st (p :: pairs)).scalingData = some d := by
  rcases happ : applyScaling nrm sqrtQ (executeStart st).scaling
      (executeStart st).scalingData (residual p.1 p.2) p.2.length
      (executeStart st).inputCouplingSizes with ⟨r, sd⟩
  have hfield : (computeResidual nrm sqrtQ (executeStart st) p.1 p.2 true).scalingData
      = sd := by
    rw [computeResidual_eq nrm sqrtQ (executeStart st) p.1 p.2 true r sd happ]
  rw [executeStart_scaling, executeStart_scalingData, hnone] at happ
  have hsome : ∃ d, sd = some d := by
    rcases hpol with h | h | h | h <;> rw [h] at happ <;>
      simp [applyScaling] at happ <;> exact ⟨_, happ.2.symm⟩
  obtain ⟨d, rfl⟩ := hsome
  refine ⟨d, hfield, ?_⟩
  unfold runResiduals
  rw [List.foldl_cons]
  exact foldResiduals_scalingData_some nrm sqrtQ pairs _ d hfield

/-- C4, witness at a concrete fresh MDA with the default policy and a
two-iteration run. -/
theorem mda_scaling_data_frozen_witness :
    ∃ d, (computeResidual nrmAbs id (executeStart (freshStateOf cfg0))
        ([2] : List ℚ) ([0] : List ℚ) true).scalingData = some d ∧
      (runResiduals nrmAbs id (freshStateOf cfg0)
        [(([2] : List ℚ), ([0] : List ℚ)), (([4] : List ℚ), ([0] : List ℚ))]).scalingData
        = some d :=
  mda_scaling_data_frozen nrmAbs id (freshStateOf cfg0) ([2], [0]) [([4], [0])]
    (Or.inl rfl) rfl

/-- C2 (amended): the residual vector used for the convergence test equals
`current_value - new_value`, componentwise — the negation, entry by entry, of
the `new_value - current_value` vector worded by the specification. -/
theorem mda_residual_sign (c n : List ℚ) :
    residual c n = (residualSpec c n).map (fun x => -x) := by
  induction c generalizing n with
  | nil => simp [residual, residualSpec]
  | cons a as ih =>
      cases n with
      | nil => simp [residual, residualSpec]
      | cons b bs =>
          simp only [residual, residualSpec, List.zipWith_cons_cons, List.map_cons,
            List.cons.injEq] at *
          exact ⟨by ring, ih bs⟩

/-- C2, counterexample to the claim as stated: with current value `[1]` and
new value `[3]`, the code computes the residual `current - new = [-2]`,
whereas the claim says `new - current = [2]`. -/
theorem mda_residual_sign_counterexample :
    residual [1] [3] = [-2] ∧ residualSpec [1] [3] = [2] ∧
      residual [1] [3] ≠ residualSpec [1] [3] := by
  refine ⟨by norm_num [residual], by norm_num [residualSpec], ?_⟩
  norm_num [residual, residualSpec]

/-- C1 (amended): duplicate discipline outputs are reported at construction
time through a logged warning listing the duplicated names (sorted), and
construction does NOT fail because of them: the constructor succeeds exactly
when the linear-solver-option check and the coupling-type check pass,
independently of duplicate outputs. -/
theorem mda_duplicate_outputs_warn (cfg : MdaConfig)
    (h : multipleOuts cfg.disciplines ≠ []) :
    MdaWarning.multipleOutputs (sortNames (multipleOuts cfg.disciplines))
        ∈ checkConsistency cfg.disciplines ∧
    (exceptOk (mkMDA cfg) = true ↔
      ("tol" ∉ cfg.linearSolverOptionKeys ∧
        notArraysOf cfg.disciplines (allCouplingsOfDisciplines cfg.disciplines) = [])) := by
  constructor
  · unfold checkConsistency
    simp [h]
  · by_cases htol : "tol" ∈ cfg.linearSolverOptionKeys
    · simp [mkMDA, exceptOk, htol]
    · by_cases hna : notArraysOf cfg.disciplines
          (allCouplingsOfDisciplines cfg.disciplines) = []
      · simp [mkMDA, exceptOk, htol, hna]
      · simp [mkMDA, exceptOk, htol, hna]

/-- C1, witness at the concrete duplicate-output configuration. -/
theorem mda_duplicate_outputs_warn_witness :
    MdaWarning.multipleOutputs (sortNames (multipleOuts cfgDup.disciplines))
        ∈ checkConsistency cfgDup.disciplines ∧
    (exceptOk (mkMDA cfgDup) = true ↔
      ("tol" ∉ cfgDup.linearSolverOptionKeys ∧
        notArraysOf cfgDup.disciplines (allCouplingsOfDisciplines cfgDup.disciplines)
          = [])) :=
  mda_duplicate_outputs_warn cfgDup (by decide)

/-- C1, counterexample to the claim as stated: `cfgDup` declares the output
`1` in two disciplines (the duplicate list is `[1]`), yet construction
succeeds — `MDA.__init__` raises nothing on duplicate outputs, it only logs
a warning. -/
theorem mda_duplicate_outputs_no_raise :
    multipleOuts cfgDup.disciplines = [1] ∧ exceptOk (mkMDA cfgDup) = true := by
  exact ⟨by decide, by decide⟩

/-- C7: evaluation of the code at the failing input.  In a batch of two
workers whose second raises an exception not listed in
`exceptions_to_re_raise`, the (spec-modelled) `CallableParallelExecution`
layer yields `None` in slot 2 while slot 1 keeps its result; but
`DiscParallelLinearization.execute` then evaluates `output[0]` on that `None`
slot (and `out[1]` in the returned-list comprehension), so the call raises
`TypeError` instead of returning a list with `None` in the failed slot. -/
theorem disc_parallel_linearization_failed_slot :
    callableParallelExecute ([] : List ℕ)
        [CallOutcome.success (((10 : ℕ), (100 : ℕ))), CallOutcome.failure 0]
      = .ok [some (10, 100), none] ∧
    discParallelLinearizationExecute (δ := ℕ) (γ := ℕ)
        [⟨0, none⟩, ⟨1, none⟩] 2 [some (10, 100), none]
      = .error .typeError := by
  exact ⟨rfl, rfl⟩

lemma computeJacobianCall_ok (st : MdaState)
    (h : "tol" ∉ st.linearSolverOptionKeys) :
    computeJacobianCall st = .ok (jacCallArgsOf st) := by
  unfold computeJacobianCall jacCallArgsOf
  rw [if_neg h]

/-- C8: a freshly constructed MDA has `lin_cache_tol_fact = 0`, so its
`_compute_jacobian` passes `exec_cache_tol = 0` and `execute = True` to
`JacobianAssembly.total_derivatives` (forcing discipline re-execution);
setting any nonzero factor (with a nonzero tolerance) turns `execute` off. -/
theorem mda_exec_cache_skip_default (cfg : MdaConfig) (w : List MdaWarning)
    (st : MdaState) (fact : ℚ) (h : mkMDA cfg = .ok (w, st)) (hf : fact ≠ 0)
    (ht : st.tolerance ≠ 0) :
    st.linCacheTolFact = 0 ∧
    (∃ args, computeJacobianCall st = .ok args ∧ args.execCacheTol = 0 ∧
      args.execute = true) ∧
    (∃ args, computeJacobianCall { st with linCacheTolFact := fact } = .ok args ∧
      args.execute = false) := by
  unfold mkMDA at h
  by_cases htol : "tol" ∈ cfg.linearSolverOptionKeys
  · simp [htol] at h
  · rw [if_neg htol] at h
    by_cases hna : notArraysOf cfg.disciplines
        (allCouplingsOfDisciplines cfg.disciplines) = []
    · rw [if_pos hna] at h
      injection h with h'
      injection h' with hw hst
      subst hst
      have htol1 : "tol" ∉ (freshStateOf cfg).linearSolverOptionKeys := htol
      have htol2 : "tol" ∉
          ({ freshStateOf cfg with linCacheTolFact := fact } : MdaState).linearSolverOptionKeys :=
        htol
      refine ⟨rfl, ⟨jacCallArgsOf (freshStateOf cfg), computeJacobianCall_ok _ htol1,
        ?_, ?_⟩, ⟨jacCallArgsOf { freshStateOf cfg with linCacheTolFact := fact },
        computeJacobianCall_ok _ htol2, ?_⟩⟩
      · show (freshStateOf cfg).linCacheTolFact * (freshStateOf cfg).tolerance = 0
        show (0 : ℚ) * cfg.tolerance = 0
        exact zero_mul _
      · show decide ((freshStateOf cfg).linCacheTolFact * (freshStateOf cfg).tolerance
          = 0) = true
        have : (freshStateOf cfg).linCacheTolFact * (freshStateOf cfg).tolerance = 0 :=
          zero_mul _
        simp [this]
      · show decide (({ freshStateOf cfg with linCacheTolFact := fact } : MdaState).linCacheTolFact
          * ({ freshStateOf cfg with linCacheTolFact := fact } : MdaState).tolerance = 0) = false
        have : fact * (freshStateOf cfg).tolerance ≠ 0 := mul_ne_zero hf ht
        simpa using this
    · rw [if_neg hna] at h
      simp at h

/-- C8, witness at the concrete configuration `cfg0` and factor 1. -/
theorem mda_exec_cache_skip_default_witness :
    (freshStateOf cfg0).linCacheTolFact = 0 ∧
    (∃ args, computeJacobianCall (freshStateOf cfg0) = .ok args ∧
      args.execCacheTol = 0 ∧ args.execute = true) ∧
    (∃ args, computeJacobianCall { freshStateOf cfg0 with linCacheTolFact := 1 }
      = .ok args ∧ args.execute = false) :=
  mda_exec_cache_skip_default cfg0 (checkConsistency cfg0.disciplines)
    (freshStateOf cfg0) 1 rfl one_ne_zero
    (by show (1 / 1000000 : ℚ) ≠ 0; norm_num)

/-- C9 (amended): the coupling-variable list passed to the Jacobian assembly
is the sorted, duplicate-free list of the coupling variables that occur
neither as a key nor as a value of the MERGED `residual_variables` dict
(`dict.update` across the disciplines in order, later disciplines overriding
earlier ones on duplicate keys). -/
theorem mda_couplings_adjoint (st : MdaState) (args : JacobianCallArgs) (v : VarName)
    (h : computeJacobianCall st = .ok args) :
    (v ∈ args.couplingsAdjoint ↔
      (v ∈ st.allCouplings ∧
        v ∉ (mergedResidualVariables st.disciplines).map Prod.fst ∧
        v ∉ (mergedResidualVariables st.disciplines).map Prod.snd)) ∧
    args.couplingsAdjoint.Sorted (· ≤ ·) ∧ args.couplingsAdjoint.Nodup := by
  unfold computeJacobianCall at h
  by_cases htol : "tol" ∈ st.linearSolverOptionKeys
  · simp [htol] at h
  · rw [if_neg htol] at h
    injection h with h'
    subst h'
    refine ⟨?_, ?_, ?_⟩
    · simp [sortNames, List.mem_insertionSort, List.mem_dedup, List.mem_filter,
        and_assoc]
    · exact List.sorted_insertionSort _ _
    · exact (List.perm_insertionSort _ _).symm.nodup (List.nodup_dedup _)

/-- C9, witness at the concrete configuration `cfg0` and variable 1. -/
theorem mda_couplings_adjoint_witness :
    ((1 : VarName) ∈ (jacCallArgsOf (freshStateOf cfg0)).couplingsAdjoint ↔
      ((1 : VarName) ∈ (freshStateOf cfg0).allCouplings ∧
        (1 : VarName) ∉ (mergedResidualVariables (freshStateOf cfg0).disciplines).map
          Prod.fst ∧
        (1 : VarName) ∉ (mergedResidualVariables (freshStateOf cfg0).disciplines).map
          Prod.snd)) ∧
    (jacCallArgsOf (freshStateOf cfg0)).couplingsAdjoint.Sorted (· ≤ ·) ∧
    (jacCallArgsOf (freshStateOf cfg0)).couplingsAdjoint.Nodup :=
  mda_couplings_adjoint (freshStateOf cfg0) (jacCallArgsOf (freshStateOf cfg0)) 1
    (computeJacobianCall_ok _ (by decide))

/-- C9, counterexample to the claim as stated: in `cfgRV`, discipline `10`
maps residual variable `5 ↦ 1` and discipline `11` maps `5 ↦ 2`; the merge
overrides `1`, so the code keeps coupling `1` in the adjoint set (`[1]`),
whereas the claim ("a key or a value of ANY discipline's residual_variables
mapping") would exclude `1` (a value of discipline `10`'s mapping), giving
`[]`. -/
theorem mda_couplings_adjoint_counterexample :
    jacCouplingsAdjoint (freshStateOf cfgRV) = [1] ∧
    couplingsAdjointSpec cfgRV.disciplines (allCouplingsOfDisciplines cfgRV.disciplines)
      = [] ∧
    ¬ ([1] : List VarName) = [] := by
  exact ⟨by decide, by decide, by decide⟩

/-- C10: constructing an MDA whose disciplines declare a coupling variable
with a non-array type in an input or output grammar raises `TypeError`
naming the (sorted) offending coupling variables; the check runs inside the
constructor, before any execution. -/
theorem mda_coupling_type_check (cfg : MdaConfig)
    (h1 : "tol" ∉ cfg.linearSolverOptionKeys)
    (h2 : notArraysOf cfg.disciplines (allCouplingsOfDisciplines cfg.disciplines) ≠ []) :
    mkMDA cfg = .error (.typeError (sortNames
      (notArraysOf cfg.disciplines (allCouplingsOfDisciplines cfg.disciplines)).dedup)) := by
  unfold mkMDA
  rw [if_neg h1, if_neg h2]

/-- C10, witness at the concrete configuration `cfgNA`, whose coupling `1`
is declared non-array by discipline `0`. -/
theorem mda_coupling_type_check_witness :
    mkMDA cfgNA = .error (.typeError (sortNames
      (notArraysOf cfgNA.disciplines (allCouplingsOfDisciplines cfgNA.disciplines)).dedup)) :=
  mda_coupling_type_check cfgNA (by decide) (by decide)

end Gemseo
